import Mathlib

/-!
Shallow embedding of the hotkey engine and command dispatcher of the
app-launcher repository (Windows implementation: package `hotkey` built on
the go-hook keyboard hook, and package `executor`).

Conventions of the embedding:
* `types.VKCode` values are `Nat` (the usual Windows virtual-key codes, as
  defined by the go-hook `types` package).
* `types.KeyboardEvent` keeps its `Message` and `VKCode` fields.
* The mutable `pressedKeys map[types.VKCode]bool` is a `Finset Nat`
  (a map to `bool` used as a set: assignment to `true` is `insert`,
  `delete` is `erase`).
* Go strings are handled at the `List Char` level for the token
  operations (`strings.TrimSpace`, `strings.ToLower`, `strings.Split`),
  restricted to the ASCII behaviour those functions have on the
  grammar's alphabet.
* Errors created with `fmt.Errorf` are represented by an inductive
  `ParseError` / `ExecError` carrying the format arguments, together
  with a `message` function reproducing the exact Go format string.
-/

instance {ε α : Type} [DecidableEq ε] [DecidableEq α] : DecidableEq (Except ε α) := fun x y =>
  match x, y with
  | .ok a, .ok b =>
    if h : a = b then .isTrue (by rw [h])
    else .isFalse (fun hh => by cases hh; exact h rfl)
  | .ok _, .error _ => .isFalse (fun hh => Except.noConfusion hh)
  | .error _, .ok _ => .isFalse (fun hh => Except.noConfusion hh)
  | .error e, .error f =>
    if h : e = f then .isTrue (by rw [h])
    else .isFalse (fun hh => by cases hh; exact h rfl)

namespace Launcher

/-! ### Virtual-key and window-message constants (go-hook `types`) -/

def VK_SPACE : Nat := 0x20
def VK_RETURN : Nat := 0x0D
def VK_TAB : Nat := 0x09
def VK_ESCAPE : Nat := 0x1B
def VK_UP : Nat := 0x26
def VK_DOWN : Nat := 0x28
def VK_LEFT : Nat := 0x25
def VK_RIGHT : Nat := 0x27
def VK_F1 : Nat := 0x70
def VK_F2 : Nat := 0x71
def VK_F3 : Nat := 0x72
def VK_F4 : Nat := 0x73
def VK_F5 : Nat := 0x74
def VK_F6 : Nat := 0x75
def VK_F7 : Nat := 0x76
def VK_F8 : Nat := 0x77
def VK_F9 : Nat := 0x78
def VK_F10 : Nat := 0x79
def VK_F11 : Nat := 0x7A
def VK_F12 : Nat := 0x7B
def VK_LSHIFT : Nat := 0xA0
def VK_RSHIFT : Nat := 0xA1
def VK_LCONTROL : Nat := 0xA2
def VK_RCONTROL : Nat := 0xA3
def VK_LMENU : Nat := 0xA4
def VK_RMENU : Nat := 0xA5
def VK_LWIN : Nat := 0x5B
def VK_RWIN : Nat := 0x5C

def WM_KEYDOWN : Nat := 0x0100
def WM_KEYUP : Nat := 0x0101
def WM_SYSKEYDOWN : Nat := 0x0104
def WM_SYSKEYUP : Nat := 0x0105

/-- A registered binding: the `modifiers` and `key` fields stored on
`HotkeyManager` by `Register`. -/
structure Binding where
  modifiers : List Nat
  key : Nat
deriving DecidableEq, Repr

/-- The `allModifiers` list of `isHotkeyPressed`: left and right variants
of Ctrl, Alt (`VK_*MENU`), Shift and Win. -/
def allModifiers : List Nat :=
  [VK_LCONTROL, VK_RCONTROL,
   VK_LMENU, VK_RMENU,
   VK_LSHIFT, VK_RSHIFT,
   VK_LWIN, VK_RWIN]

/-- `(h *HotkeyManager) isHotkeyPressed(pressedKeys)`: the main key is
down, every registered modifier is down, and no known modifier outside
the registered ones is down. -/
def isHotkeyPressed (b : Binding) (p : Finset Nat) : Bool :=
  decide (b.key ∈ p)
  && b.modifiers.all (fun m => decide (m ∈ p))
  && allModifiers.all (fun m => !(decide (m ∈ p) && !decide (m ∈ b.modifiers)))

/-- `types.KeyboardEvent` (fields `Message`, `VKCode`). -/
structure KeyboardEvent where
  message : Nat
  vkCode : Nat
deriving DecidableEq, Repr

/-- One iteration of the event loop inside `Start` on a keyboard event:
on WM_KEYDOWN/WM_SYSKEYDOWN record the key and evaluate the match,
invoking the callback on success (the second component counts callback
invocations); on WM_KEYUP/WM_SYSKEYUP delete the key. -/
def applyEvent (b : Binding) (p : Finset Nat) (e : KeyboardEvent) :
    Finset Nat × Nat :=
  if e.message = WM_KEYDOWN ∨ e.message = WM_SYSKEYDOWN then
    let p' := insert e.vkCode p
    (p', if isHotkeyPressed b p' then 1 else 0)
  else if e.message = WM_KEYUP ∨ e.message = WM_SYSKEYUP then
    (p.erase e.vkCode, 0)
  else
    (p, 0)

/-- Run the event loop over a list of delivered events, starting from a
pressed-key set, returning the final set and the total number of
callback invocations. -/
def runEvents (b : Binding) : Finset Nat → List KeyboardEvent → Finset Nat × Nat
  | p, [] => (p, 0)
  | p, e :: es =>
    let step := applyEvent b p e
    let rest := runEvents b step.1 es
    (rest.1, step.2 + rest.2)

/-! ### The keybinding parser (`parseHotkey`, `parseModifier`, `parseKey`)
together with the empty-string check performed by `Register`. -/

/-- The distinct `fmt.Errorf` error kinds produced by `Register` and
`parseHotkey`.  `missingModifier` is the fewer-than-2-tokens error,
`missingModifierPost` the defensive zero-modifiers-after-parsing error;
both belong to the spec's `MissingModifier` kind but are distinct Go
messages. -/
inductive ParseError where
  | emptyBinding : ParseError
  | missingModifier : ParseError
  | unknownModifier (token : String) : ParseError
  | unknownKey (token : String) : ParseError
  | noKeySpecified : ParseError
  | missingModifierPost : ParseError
deriving DecidableEq, Repr

/-- The exact Go error message of each kind. -/
def ParseError.message : ParseError → String
  | .emptyBinding => "hotkey string cannot be empty"
  | .missingModifier => "hotkey must contain at least one modifier and a key"
  | .unknownModifier t => "unknown modifier: " ++ t
  | .unknownKey t => "unknown key: " ++ t
  | .noKeySpecified => "no key specified"
  | .missingModifierPost => "at least one modifier is required"

/-- ASCII whitespace recognised by `strings.TrimSpace`. -/
def isGoSpace (c : Char) : Bool :=
  c = ' ' || c = '\t' || c = '\n' || c = '\x0b' || c = '\x0c' || c = '\r'

/-- `strings.TrimSpace` (ASCII fragment): drop whitespace from both ends. -/
def trimSpace (l : List Char) : List Char :=
  (((l.dropWhile isGoSpace).reverse.dropWhile isGoSpace)).reverse

/-- `parseModifier`: case-insensitive modifier names, each mapped to the
left physical variant of the corresponding virtual-key code. -/
def parseModifier (t : List Char) : Option Nat :=
  let l := t.map Char.toLower
  if l = "ctrl".toList ∨ l = "control".toList then some VK_LCONTROL
  else if l = "alt".toList then some VK_LMENU
  else if l = "shift".toList then some VK_LSHIFT
  else if l = "win".toList ∨ l = "windows".toList ∨ l = "super".toList
          ∨ l = "cmd".toList ∨ l = "command".toList then some VK_LWIN
  else none

/-- The body of `parseKey` after the `keyStr = strings.ToLower(keyStr)`
reassignment: the switch over special keys, the function-key block,
then the single-byte digit and letter ranges. -/
def parseKeyLower (l : List Char) : Option Nat :=
  if l = "space".toList then some VK_SPACE
  else if l = "enter".toList ∨ l = "return".toList then some VK_RETURN
  else if l = "tab".toList then some VK_TAB
  else if l = "escape".toList ∨ l = "esc".toList then some VK_ESCAPE
  else if l = "up".toList then some VK_UP
  else if l = "down".toList then some VK_DOWN
  else if l = "left".toList then some VK_LEFT
  else if l = "right".toList then some VK_RIGHT
  else if l = "f1".toList then some VK_F1
  else if l = "f2".toList then some VK_F2
  else if l = "f3".toList then some VK_F3
  else if l = "f4".toList then some VK_F4
  else if l = "f5".toList then some VK_F5
  else if l = "f6".toList then some VK_F6
  else if l = "f7".toList then some VK_F7
  else if l = "f8".toList then some VK_F8
  else if l = "f9".toList then some VK_F9
  else if l = "f10".toList then some VK_F10
  else if l = "f11".toList then some VK_F11
  else if l = "f12".toList then some VK_F12
  else
    match l with
    | [c] =>
      if 48 ≤ c.toNat ∧ c.toNat ≤ 57 then some c.toNat
      else if 97 ≤ c.toNat ∧ c.toNat ≤ 122 then some (c.toNat - 32)
      else none
    | _ => none

/-- `parseKey`: lower-case the token, then resolve it. -/
def parseKey (t : List Char) : Option Nat :=
  parseKeyLower (t.map Char.toLower)

/-- The per-token loop of `parseHotkey`: each part is trimmed; a non-last
part must parse as a modifier, the last part must parse as a key.  An
empty part list leaves `keyFound` false (`no key specified`). -/
def parseLoop : List (List Char) → Except ParseError (List Nat × Nat)
  | [] => .error .noKeySpecified
  | part :: rest =>
    let t := trimSpace part
    if rest.isEmpty then
      match parseKey t with
      | some k => .ok ([], k)
      | none => .error (.unknownKey ⟨t⟩)
    else
      match parseModifier t with
      | some m =>
        match parseLoop rest with
        | .ok (ms, k) => .ok (m :: ms, k)
        | .error e => .error e
      | none => .error (.unknownModifier ⟨t⟩)

/-- `parseHotkey`: split on `+`, require at least two parts, run the
token loop, and apply the defensive zero-modifiers check. -/
def parseHotkey (s : String) : Except ParseError Binding :=
  let parts := s.toList.splitOn '+'
  if parts.length < 2 then .error .missingModifier
  else
    match parseLoop parts with
    | .ok (ms, k) => if ms.isEmpty then .error .missingModifierPost else .ok ⟨ms, k⟩
    | .error e => .error e

/-- The parsing pipeline as `Register` runs it: the empty-string check,
then `parseHotkey`. -/
def parse (s : String) : Except ParseError Binding :=
  if s = "" then .error .emptyBinding else parseHotkey s

/-! ### Listener lifecycle: the `Stop` method

The shared mutable state that `Stop` touches is the `isRunning` flag and
the `stopChan` channel.  Closing a closed Go channel panics; `Stop`
guards the close with a non-blocking receive, modelled by `closeChan`
returning `none` on a double close (the panic case). -/

/-- The `HotkeyManager` fields `isRunning` and the closed-state of
`stopChan`. `NewHotkeyManager` produces `⟨false, false⟩`; `Start` sets
`isRunning := true`. -/
structure MgrState where
  isRunning : Bool
  stopClosed : Bool
deriving DecidableEq, Repr

/-- `close(h.stopChan)`: panics (`none`) if the channel is already
closed, otherwise closes it. -/
def closeChan (closed : Bool) : Option Bool :=
  if closed then none else some true

/-- `(h *HotkeyManager) Stop()`: when running, close `stopChan` unless a
receive shows it already closed, then clear `isRunning`.  Returns the
new state and whether the one-shot stop signal was delivered by this
call; `none` would mean a double-close panic. -/
def StopMgr (s : MgrState) : Option (MgrState × Bool) :=
  if s.isRunning then
    if s.stopClosed then
      some ({ s with isRunning := false }, false)
    else
      match closeChan s.stopClosed with
      | some _ => some (⟨false, true⟩, true)
      | none => none
  else
    some (s, false)

/-- `n` successive calls to `Stop()`, collecting the number of stop
signals delivered; `none` if any call panics. -/
def iterStop : Nat → MgrState → Option (MgrState × Nat)
  | 0, s => some (s, 0)
  | n + 1, s =>
    match StopMgr s with
    | some (s', b) =>
      match iterStop n s' with
      | some (s'', c) => some (s'', (if b then 1 else 0) + c)
      | none => none
    | none => none

/-! ### The command dispatcher (`executor.Execute`) -/

/-- `config.Command`: the resolved path and argument vector. -/
structure Command where
  path : String
  args : List String
deriving DecidableEq, Repr

/-- The `fmt.Errorf` error kinds of `Execute`. -/
inductive ExecError where
  | commandNotFound (name : String) : ExecError
  | launchFailed (name : String) (osError : String) : ExecError
deriving DecidableEq, Repr

/-- The exact Go error message of each dispatch error kind. -/
def ExecError.message : ExecError → String
  | .commandNotFound n => "command '" ++ n ++ "' not found"
  | .launchFailed n e => "failed to launch '" ++ n ++ "': " ++ e

/-- Result of one `Execute` call: the returned error (`none` = nil) and
the list of `(path, args)` pairs handed to `exec.Command(...).Start()`. -/
structure ExecOutcome where
  result : Option ExecError
  startCalls : List (String × List String)
deriving DecidableEq, Repr

/-- `(e *Executor) Execute(commandName)`.  The command registry
(`GetCommand`), the path normalisation (`filepath`-based
`normalizePath`) and the OS process start (`exec.Cmd.Start`, returning
`some osError` on failure) are external collaborators, passed as
functions. -/
def Execute (getCommand : String → Option Command)
    (normalize : String → String)
    (launch : String → List String → Option String)
    (name : String) : ExecOutcome :=
  match getCommand name with
  | none => ⟨some (.commandNotFound name), []⟩
  | some cmd =>
    let np := normalize cmd.path
    match launch np cmd.args with
    | some osErr => ⟨some (.launchFailed name osErr), [(np, cmd.args)]⟩
    | none => ⟨none, [(np, cmd.args)]⟩

/-! ### Helper lemmas about the matcher -/

lemma isHotkeyPressed_true_iff (b : Binding) (p : Finset Nat) :
    isHotkeyPressed b p = true ↔
      b.key ∈ p ∧ (∀ m ∈ b.modifiers, m ∈ p) ∧
      ∀ m ∈ allModifiers, m ∈ p → m ∈ b.modifiers := by
  simp [isHotkeyPressed, List.all_eq_true, imp_iff_not_or]
  tauto

/-- C1: with the bound key and all required modifiers down, the match is
false exactly when some known modifier outside the binding's modifier
list is also down — so extra non-modifier keys never block a match —
and binding Alt+Space does not match pressed set {Ctrl, Alt, Space}. -/
theorem match_blocks_extra_modifiers_only :
    (∀ (b : Binding) (p : Finset Nat),
      b.key ∈ p → (∀ m ∈ b.modifiers, m ∈ p) →
      ((∃ m' ∈ allModifiers, m' ∈ p ∧ m' ∉ b.modifiers) →
        isHotkeyPressed b p = false)
      ∧ ((∀ m' ∈ allModifiers, m' ∈ p → m' ∈ b.modifiers) →
        isHotkeyPressed b p = true))
    ∧ isHotkeyPressed ⟨[VK_LMENU], VK_SPACE⟩
        {VK_LCONTROL, VK_LMENU, VK_SPACE} = false := by
  constructor
  · intro b p hk hm
    constructor
    · rintro ⟨m', hall, hp, hnb⟩
      cases hb : isHotkeyPressed b p with
      | false => rfl
      | true =>
        rw [isHotkeyPressed_true_iff] at hb
        exact absurd (hb.2.2 m' hall hp) hnb
    · intro hno
      rw [isHotkeyPressed_true_iff]
      exact ⟨hk, hm, hno⟩
  · decide

theorem match_blocks_extra_modifiers_only_witness :
    isHotkeyPressed ⟨[VK_LMENU], VK_SPACE⟩
      {VK_LCONTROL, VK_LMENU, VK_SPACE} = false ∧
    isHotkeyPressed ⟨[VK_LMENU], VK_SPACE⟩ {VK_LMENU, VK_SPACE, 65} = true :=
  ⟨(match_blocks_extra_modifiers_only.1 ⟨[VK_LMENU], VK_SPACE⟩
      {VK_LCONTROL, VK_LMENU, VK_SPACE} (by decide) (by decide)).1
      ⟨VK_LCONTROL, by decide, by decide, by decide⟩,
   (match_blocks_extra_modifiers_only.1 ⟨[VK_LMENU], VK_SPACE⟩
      {VK_LMENU, VK_SPACE, 65} (by decide) (by decide)).2 (by decide)⟩

/-- C2 counterexample: the binding parsed from "Ctrl+Space" stores the
left variant `VK_LCONTROL`; with the right variant `VK_RCONTROL` held
together with the key, the match fails, contradicting the claim that
either physical variant satisfies the required-modifier check. -/
theorem right_variant_counterexample :
    parse "Ctrl+Space" = .ok ⟨[VK_LCONTROL], VK_SPACE⟩ ∧
    VK_SPACE ∈ ({VK_RCONTROL, VK_SPACE} : Finset Nat) ∧
    isHotkeyPressed ⟨[VK_LCONTROL], VK_SPACE⟩ {VK_RCONTROL, VK_SPACE} = false := by
  decide

/-- C2 amended: the parser stores only the left physical variant of each
logical modifier; the required-modifier check is satisfied only by that
exact stored code — a required modifier code not in the pressed set
fails the match, and a held variant outside the stored modifier list is
an extra modifier and also fails the match.  Holding the stored (left)
variant does match. -/
theorem modifier_match_requires_stored_variant :
    (∀ (t : List Char) (m : Nat), parseModifier t = some m →
      m = VK_LCONTROL ∨ m = VK_LMENU ∨ m = VK_LSHIFT ∨ m = VK_LWIN) ∧
    (∀ (b : Binding) (p : Finset Nat) (m : Nat), m ∈ b.modifiers → m ∉ p →
      isHotkeyPressed b p = false) ∧
    (∀ (b : Binding) (p : Finset Nat) (m : Nat),
      m ∈ allModifiers → m ∈ p → m ∉ b.modifiers →
      isHotkeyPressed b p = false) ∧
    isHotkeyPressed ⟨[VK_LCONTROL], VK_SPACE⟩ {VK_LCONTROL, VK_SPACE} = true := by
  refine ⟨?_, ?_, ?_, by decide⟩
  · intro t m h
    unfold parseModifier at h
    dsimp only at h
    split_ifs at h <;> simp_all
  · intro b p m hmb hmp
    cases hb : isHotkeyPressed b p with
    | false => rfl
    | true =>
      rw [isHotkeyPressed_true_iff] at hb
      exact absurd (hb.2.1 m hmb) hmp
  · intro b p m hall hmp hmb
    cases hb : isHotkeyPressed b p with
    | false => rfl
    | true =>
      rw [isHotkeyPressed_true_iff] at hb
      exact absurd (hb.2.2 m hall hmp) hmb

theorem modifier_match_requires_stored_variant_witness :
    (VK_LMENU = VK_LCONTROL ∨ VK_LMENU = VK_LMENU ∨
      VK_LMENU = VK_LSHIFT ∨ VK_LMENU = VK_LWIN) ∧
    isHotkeyPressed ⟨[VK_LCONTROL], VK_SPACE⟩ {VK_RCONTROL, VK_SPACE} = false ∧
    isHotkeyPressed ⟨[VK_LMENU], VK_SPACE⟩ {VK_RMENU, VK_LMENU, VK_SPACE} = false :=
  ⟨modifier_match_requires_stored_variant.1 "alt".toList VK_LMENU (by decide),
   modifier_match_requires_stored_variant.2.1 ⟨[VK_LCONTROL], VK_SPACE⟩
     {VK_RCONTROL, VK_SPACE} VK_LCONTROL (by decide) (by decide),
   modifier_match_requires_stored_variant.2.2.1 ⟨[VK_LMENU], VK_SPACE⟩
     {VK_RMENU, VK_LMENU, VK_SPACE} VK_RMENU (by decide) (by decide) (by decide)⟩

/-- C3: every delivered key-down event after which the combination
matches produces exactly one callback invocation — auto-repeat
key-downs of the bound key and a re-press after a release each retrigger
(the concrete run: press Alt, press Space, auto-repeat Space, release
Alt, re-press Alt — three invocations, one per qualifying key-down). -/
theorem keydown_retriggers_per_event :
    (∀ (b : Binding) (p : Finset Nat) (e : KeyboardEvent),
      (e.message = WM_KEYDOWN ∨ e.message = WM_SYSKEYDOWN) →
      isHotkeyPressed b (insert e.vkCode p) = true →
      applyEvent b p e = (insert e.vkCode p, 1)) ∧
    (runEvents ⟨[VK_LMENU], VK_SPACE⟩ ∅
      [⟨WM_KEYDOWN, VK_LMENU⟩, ⟨WM_KEYDOWN, VK_SPACE⟩, ⟨WM_KEYDOWN, VK_SPACE⟩,
       ⟨WM_KEYUP, VK_LMENU⟩, ⟨WM_SYSKEYDOWN, VK_LMENU⟩]).2 = 3 := by
  constructor
  · intro b p e hmsg hmatch
    unfold applyEvent
    rw [if_pos hmsg]
    simp [hmatch]
  · decide

theorem keydown_retriggers_per_event_witness :
    applyEvent ⟨[VK_LMENU], VK_SPACE⟩ {VK_LMENU} ⟨WM_KEYDOWN, VK_SPACE⟩ =
      (insert VK_SPACE {VK_LMENU}, 1) :=
  keydown_retriggers_per_event.1 ⟨[VK_LMENU], VK_SPACE⟩ {VK_LMENU}
    ⟨WM_KEYDOWN, VK_SPACE⟩ (Or.inl rfl) (by decide)

/-- C4: a key-release event (WM_KEYUP or WM_SYSKEYUP) removes the key
from the pressed set and never invokes the callback; an invocation can
only happen while processing a key-down message. -/
theorem keyup_removes_never_invokes :
    (∀ (b : Binding) (p : Finset Nat) (e : KeyboardEvent),
      (e.message = WM_KEYUP ∨ e.message = WM_SYSKEYUP) →
      applyEvent b p e = (p.erase e.vkCode, 0)) ∧
    (∀ (b : Binding) (p : Finset Nat) (e : KeyboardEvent),
      (applyEvent b p e).2 ≠ 0 →
      e.message = WM_KEYDOWN ∨ e.message = WM_SYSKEYDOWN) := by
  constructor
  · intro b p e hmsg
    unfold applyEvent
    rw [if_neg, if_pos hmsg]
    rcases hmsg with h | h <;> rw [h] <;> decide
  · intro b p e h
    unfold applyEvent at h
    split_ifs at h with h1 h2
    · exact h1
    · simp at h
    · simp at h

theorem keyup_removes_never_invokes_witness :
    applyEvent ⟨[VK_LMENU], VK_SPACE⟩ {VK_LMENU, VK_SPACE} ⟨WM_KEYUP, VK_SPACE⟩ =
      (({VK_LMENU, VK_SPACE} : Finset Nat).erase VK_SPACE, 0) :=
  keyup_removes_never_invokes.1 ⟨[VK_LMENU], VK_SPACE⟩ {VK_LMENU, VK_SPACE}
    ⟨WM_KEYUP, VK_SPACE⟩ (Or.inl rfl)

/-- C5: parsing the empty string fails with the `EmptyBinding` kind,
which is distinct as a constructor — and as a Go message — from
`MissingModifier` (both of its message sites) and every other
parse-error kind. -/
theorem parse_empty_is_emptyBinding :
    parse "" = .error .emptyBinding ∧
    (∀ t u : String,
      ParseError.emptyBinding ≠ ParseError.missingModifier ∧
      ParseError.emptyBinding ≠ ParseError.missingModifierPost ∧
      ParseError.emptyBinding ≠ ParseError.unknownModifier t ∧
      ParseError.emptyBinding ≠ ParseError.unknownKey u ∧
      ParseError.emptyBinding ≠ ParseError.noKeySpecified) ∧
    ParseError.emptyBinding.message ≠ ParseError.missingModifier.message ∧
    ParseError.emptyBinding.message ≠ ParseError.missingModifierPost.message := by
  refine ⟨by decide, ?_, by decide, by decide⟩
  intro t u
  refine ⟨fun h => ?_, fun h => ?_, fun h => ?_, fun h => ?_, fun h => ?_⟩ <;> cases h

/-- C6: looking up a name absent from the registry returns a
`CommandNotFound` error whose message embeds the literal name, and no
process start is attempted; concretely for `Execute("missing")` against
the empty registry. -/
theorem execute_unknown_name_not_found :
    (∀ (reg : String → Option Command) (normalize : String → String)
        (launch : String → List String → Option String) (name : String),
      reg name = none →
      Execute reg normalize launch name = ⟨some (.commandNotFound name), []⟩) ∧
    (∃ pre post : String,
      (ExecError.commandNotFound "missing").message = pre ++ "missing" ++ post) ∧
    Execute (fun _ => none) id (fun _ _ => none) "missing" =
      ⟨some (.commandNotFound "missing"), []⟩ := by
  refine ⟨?_, ⟨"command '", "' not found", rfl⟩, rfl⟩
  intro reg normalize launch name h
  unfold Execute
  rw [h]

theorem execute_unknown_name_not_found_witness :
    Execute (fun _ => none) id (fun _ _ => none) "missing" =
      ⟨some (.commandNotFound "missing"), []⟩ :=
  execute_unknown_name_not_found.1 (fun _ => none) id (fun _ _ => none)
    "missing" rfl

/-- C7: `Stop()` never panics in any state and returns normally (the
model never yields `none`), it delivers the stop signal only from the
not-yet-closed state and leaves the channel closed, and any number of
consecutive `Stop()` calls from any state deliver the one-shot stop
signal at most once — never closing the channel twice. -/
theorem stop_idempotent_one_shot :
    (∀ s : MgrState, (StopMgr s).isSome = true) ∧
    (∀ (s s' : MgrState) (b : Bool), StopMgr s = some (s', b) → b = true →
      s.stopClosed = false ∧ s'.stopClosed = true) ∧
    (∀ (n : Nat) (s : MgrState), ∃ s' c, iterStop n s = some (s', c) ∧ c ≤ 1 ∧
      (s.stopClosed = true → c = 0)) := by
  refine ⟨?_, ?_, ?_⟩
  · intro ⟨ir, sc⟩
    cases ir <;> cases sc <;> decide
  · intro ⟨ir, sc⟩ s' b h hb
    subst hb
    cases ir <;> cases sc <;> simp [StopMgr, closeChan] at h
    subst h
    decide
  · intro n
    induction n with
    | zero => exact fun s => ⟨s, 0, rfl, Nat.zero_le 1, fun _ => rfl⟩
    | succ n ih =>
      intro ⟨ir, sc⟩
      cases ir <;> cases sc
      · obtain ⟨s', c, hit, hc, hclosed⟩ := ih ⟨false, false⟩
        exact ⟨s', c, by simp [iterStop, StopMgr, hit], hc, fun h => by cases h⟩
      · obtain ⟨s', c, hit, hc, hclosed⟩ := ih ⟨false, true⟩
        refine ⟨s', c, by simp [iterStop, StopMgr, hit], hc, fun _ => hclosed rfl⟩
      · obtain ⟨s', c, hit, hc, hclosed⟩ := ih ⟨false, true⟩
        have hc0 : c = 0 := hclosed rfl
        refine ⟨s', 1 + c, by simp [iterStop, StopMgr, closeChan, hit], by omega,
          fun h => by cases h⟩
      · obtain ⟨s', c, hit, hc, hclosed⟩ := ih ⟨false, true⟩
        refine ⟨s', c, by simp [iterStop, StopMgr, hit], hc, fun _ => hclosed rfl⟩

theorem stop_idempotent_one_shot_witness :
    ((⟨true, false⟩ : MgrState).stopClosed = false ∧
      (⟨false, true⟩ : MgrState).stopClosed = true) ∧
    (∃ s' c, iterStop 3 ⟨true, false⟩ = some (s', c) ∧ c ≤ 1 ∧
      ((⟨true, false⟩ : MgrState).stopClosed = true → c = 0)) :=
  ⟨stop_idempotent_one_shot.2.1 ⟨true, false⟩ ⟨false, true⟩ true (by decide) rfl,
   stop_idempotent_one_shot.2.2 3 ⟨true, false⟩⟩

/-! ### Helper lemmas about the parser loop -/

lemma parseLoop_append_unknownKey (ms : List (List Char)) (t : List Char)
    (hmods : ∀ p ∈ ms, (parseModifier (trimSpace p)).isSome = true)
    (hkey : parseKey (trimSpace t) = none) :
    parseLoop (ms ++ [t]) = .error (.unknownKey ⟨trimSpace t⟩) := by
  induction ms with
  | nil => simp [parseLoop, hkey]
  | cons m rest ih =>
    have hm := hmods m (List.mem_cons_self m rest)
    obtain ⟨v, hv⟩ := Option.isSome_iff_exists.mp hm
    simp only [List.cons_append, parseLoop, List.append_eq, hv]
    rw [if_neg (by simp), ih (fun p hp => hmods p (List.mem_cons_of_mem m hp))]

/-- C8 counterexample: in "Xyz+Alt" the last token "Alt" does not
resolve to a key name, yet parsing fails with `UnknownModifier("Xyz")` —
the earlier non-last token fails first — not with `UnknownKey("Alt")` as
the claim universally requires. -/
theorem unknownKey_counterexample :
    parseKey (trimSpace "Alt".toList) = none ∧
    parse "Xyz+Alt" = .error (.unknownModifier "Xyz") ∧
    parse "Xyz+Alt" ≠ .error (.unknownKey "Alt") := by decide

/-- C8 amended: when the input splits on '+' into at least two tokens
and every non-last token parses as a modifier, a last token that does
not resolve to a recognized key name — such as the modifier name
"Alt" — fails the parse with `UnknownKey` carrying that token; in
particular parse("Ctrl+Alt") fails with UnknownKey("Alt").  (When some
non-last token already fails as a modifier, `UnknownModifier` wins
instead.) -/
theorem last_token_unknown_key :
    (∀ (s : String) (ms : List (List Char)) (t : List Char),
      s.toList.splitOn '+' = ms ++ [t] →
      ms ≠ [] →
      (∀ p ∈ ms, (parseModifier (trimSpace p)).isSome = true) →
      parseKey (trimSpace t) = none →
      parse s = .error (.unknownKey ⟨trimSpace t⟩)) ∧
    parse "Ctrl+Alt" = .error (.unknownKey "Alt") := by
  refine ⟨?_, by decide⟩
  intro s ms t hsplit hne hmods hkey
  have hs : s ≠ "" := by
    intro h
    subst h
    have : ([[]] : List (List Char)) = ms ++ [t] := hsplit
    have hlen := congrArg List.length this
    simp at hlen
    exact hne hlen
  unfold parse
  rw [if_neg hs]
  unfold parseHotkey
  dsimp only
  rw [hsplit]
  have hlen : ¬ (ms ++ [t]).length < 2 := by
    rcases ms with _ | ⟨m, ms⟩
    · exact absurd rfl hne
    · simp
  rw [if_neg hlen, parseLoop_append_unknownKey ms t hmods hkey]

theorem last_token_unknown_key_witness :
    parse "Ctrl+Alt" = .error (.unknownKey ⟨trimSpace "Alt".toList⟩) :=
  last_token_unknown_key.1 "Ctrl+Alt" ["Ctrl".toList] "Alt".toList
    (by decide) (by decide) (by decide) (by decide)

/-! ### Case-folding and trimming lemmas -/

lemma toNat_ofNat_valid (n : Nat) (h : n.isValidChar) : (Char.ofNat n).toNat = n := by
  simp [Char.ofNat, Char.ofNatAux, Char.toNat, h, UInt32.toNat, BitVec.ofNatLt]

lemma toLower_idem (c : Char) : c.toLower.toLower = c.toLower := by
  unfold Char.toLower
  dsimp only
  by_cases h : c.toNat ≥ 65 ∧ c.toNat ≤ 90
  · rw [if_pos h]
    have hv : (c.toNat + 32).isValidChar := by
      left
      omega
    rw [toNat_ofNat_valid _ hv, if_neg (by omega)]
  · rw [if_neg h, if_neg h]

lemma map_toLower_idem (t : List Char) :
    (t.map Char.toLower).map Char.toLower = t.map Char.toLower := by
  induction t with
  | nil => rfl
  | cons c cs ih => simp [toLower_idem, ih]

lemma dropWhile_append_all (p : Char → Bool) (w l : List Char)
    (hw : ∀ c ∈ w, p c = true) : (w ++ l).dropWhile p = l.dropWhile p := by
  induction w with
  | nil => rfl
  | cons c cs ih =>
    simp only [List.cons_append, List.dropWhile_cons,
      hw c (List.mem_cons_self c cs), if_true]
    exact ih (fun d hd => hw d (List.mem_cons_of_mem c hd))

lemma dropWhile_append_of_ne_nil (p : Char → Bool) (l w : List Char)
    (h : l.dropWhile p ≠ []) : (l ++ w).dropWhile p = l.dropWhile p ++ w := by
  induction l with
  | nil => exact absurd rfl h
  | cons c cs ih =>
    by_cases hc : p c = true
    · simp only [List.cons_append, List.dropWhile_cons, hc, if_true] at h ⊢
      exact ih h
    · simp [List.dropWhile_cons, hc]

lemma trimSpace_pad (w1 t w2 : List Char)
    (h1 : ∀ c ∈ w1, isGoSpace c = true) (h2 : ∀ c ∈ w2, isGoSpace c = true) :
    trimSpace (w1 ++ t ++ w2) = trimSpace t := by
  unfold trimSpace
  rw [List.append_assoc, dropWhile_append_all _ w1 _ h1]
  by_cases hd : t.dropWhile isGoSpace = []
  · have ht : ∀ c ∈ t, isGoSpace c = true := by
      rw [← List.dropWhile_eq_nil_iff]
      exact hd
    rw [dropWhile_append_all _ t _ ht, hd]
    have hw2 : w2.dropWhile isGoSpace = [] := List.dropWhile_eq_nil_iff.mpr h2
    rw [hw2]
  · rw [dropWhile_append_of_ne_nil _ t w2 hd, List.reverse_append,
      dropWhile_append_all _ w2.reverse _
        (fun c hc => h2 c (List.mem_reverse.mp hc))]

/-- C9: token resolution is case-insensitive (lower-casing a token does
not change how it parses, for modifiers and for keys), each token is
trimmed of surrounding whitespace before resolution, and concretely
parse("Alt+Space") = {Alt, Space}, parse("CTRL+alt+l") = {Ctrl+Alt, L}
(0x4C is the virtual-key code of the letter L), with whitespace-padded
tokens parsing identically. -/
theorem parse_case_insensitive_and_trimmed :
    (∀ t : List Char, parseModifier (t.map Char.toLower) = parseModifier t) ∧
    (∀ t : List Char, parseKey (t.map Char.toLower) = parseKey t) ∧
    (∀ w1 t w2 : List Char, (∀ c ∈ w1, isGoSpace c = true) →
      (∀ c ∈ w2, isGoSpace c = true) →
      trimSpace (w1 ++ t ++ w2) = trimSpace t) ∧
    parse "Alt+Space" = .ok ⟨[VK_LMENU], VK_SPACE⟩ ∧
    parse "CTRL+alt+l" = .ok ⟨[VK_LCONTROL, VK_LMENU], 0x4C⟩ ∧
    parse " Alt + Space " = .ok ⟨[VK_LMENU], VK_SPACE⟩ := by
  refine ⟨?_, ?_, trimSpace_pad, by decide, by decide, by decide⟩
  · intro t
    unfold parseModifier
    rw [map_toLower_idem]
  · intro t
    unfold parseKey
    rw [map_toLower_idem]

theorem parse_case_insensitive_and_trimmed_witness :
    trimSpace (" ".toList ++ "Alt".toList ++ " ".toList) =
      trimSpace "Alt".toList :=
  parse_case_insensitive_and_trimmed.2.2.1 " ".toList "Alt".toList " ".toList
    (by decide) (by decide)

/-! ### Structural lemmas about `parseLoop` and `parseKey` for the
binding invariant -/

lemma parseLoop_length : ∀ (parts : List (List Char)) (ms : List Nat) (k : Nat),
    parseLoop parts = .ok (ms, k) → ms.length + 1 = parts.length := by
  intro parts
  induction parts with
  | nil => intro ms k h; exact absurd h (by simp [parseLoop])
  | cons part rest ih =>
    intro ms k h
    unfold parseLoop at h
    dsimp only at h
    by_cases hr : rest.isEmpty = true
    · rw [if_pos hr] at h
      cases hk : parseKey (trimSpace part) with
      | none => rw [hk] at h; exact absurd h (by simp)
      | some k' =>
        rw [hk] at h
        simp only [Except.ok.injEq, Prod.mk.injEq] at h
        rw [List.isEmpty_iff] at hr
        rw [hr, ← h.1]
        rfl
    · rw [if_neg hr] at h
      cases hm : parseModifier (trimSpace part) with
      | none => rw [hm] at h; exact absurd h (by simp)
      | some m =>
        rw [hm] at h
        cases hl : parseLoop rest with
        | error e => rw [hl] at h; exact absurd h (by simp)
        | ok pr =>
          obtain ⟨ms', k'⟩ := pr
          rw [hl] at h
          simp only [Except.ok.injEq, Prod.mk.injEq] at h
          have hlen := ih ms' k' hl
          rw [← h.1]
          simp only [List.length_cons]
          omega

lemma parseLoop_key : ∀ (parts : List (List Char)) (ms : List Nat) (k : Nat),
    parseLoop parts = .ok (ms, k) → ∃ t, parseKey t = some k := by
  intro parts
  induction parts with
  | nil => intro ms k h; exact absurd h (by simp [parseLoop])
  | cons part rest ih =>
    intro ms k h
    unfold parseLoop at h
    dsimp only at h
    by_cases hr : rest.isEmpty = true
    · rw [if_pos hr] at h
      cases hk : parseKey (trimSpace part) with
      | none => rw [hk] at h; exact absurd h (by simp)
      | some k' =>
        rw [hk] at h
        simp only [Except.ok.injEq, Prod.mk.injEq] at h
        exact ⟨trimSpace part, by rw [hk, h.2]⟩
    · rw [if_neg hr] at h
      cases hm : parseModifier (trimSpace part) with
      | none => rw [hm] at h; exact absurd h (by simp)
      | some m =>
        rw [hm] at h
        cases hl : parseLoop rest with
        | error e => rw [hl] at h; exact absurd h (by simp)
        | ok pr =>
          obtain ⟨ms', k'⟩ := pr
          rw [hl] at h
          simp only [Except.ok.injEq, Prod.mk.injEq] at h
          exact h.2 ▸ ih ms' k' hl

lemma parseLoop_no_post : ∀ parts : List (List Char),
    parseLoop parts ≠ .error .missingModifierPost := by
  intro parts
  induction parts with
  | nil => simp [parseLoop]
  | cons part rest ih =>
    intro h
    unfold parseLoop at h
    dsimp only at h
    by_cases hr : rest.isEmpty = true
    · rw [if_pos hr] at h
      cases hk : parseKey (trimSpace part) with
      | none => rw [hk] at h; exact ParseError.noConfusion (Except.error.inj h)
      | some k' => rw [hk] at h; exact Except.noConfusion h
    · rw [if_neg hr] at h
      cases hm : parseModifier (trimSpace part) with
      | none => rw [hm] at h; exact ParseError.noConfusion (Except.error.inj h)
      | some m =>
        rw [hm] at h
        cases hl : parseLoop rest with
        | error e =>
          rw [hl] at h
          exact ih (by rw [hl, Except.error.inj h])
        | ok pr => obtain ⟨ms', k'⟩ := pr; rw [hl] at h; exact Except.noConfusion h

lemma parseKeyLower_not_modifier : ∀ (l : List Char) (k : Nat),
    parseKeyLower l = some k → k ∉ allModifiers := by
  intro l k h
  unfold parseKeyLower at h
  by_cases h1 : l = "space".toList
  · rw [if_pos h1] at h
    injection h with h
    subst h
    decide
  · rw [if_neg h1] at h
    by_cases h2 : l = "enter".toList ∨ l = "return".toList
    · rw [if_pos h2] at h
      injection h with h
      subst h
      decide
    · rw [if_neg h2] at h
      by_cases h3 : l = "tab".toList
      · rw [if_pos h3] at h
        injection h with h
        subst h
        decide
      · rw [if_neg h3] at h
        by_cases h4 : l = "escape".toList ∨ l = "esc".toList
        · rw [if_pos h4] at h
          injection h with h
          subst h
          decide
        · rw [if_neg h4] at h
          by_cases h5 : l = "up".toList
          · rw [if_pos h5] at h
            injection h with h
            subst h
            decide
          · rw [if_neg h5] at h
            by_cases h6 : l = "down".toList
            · rw [if_pos h6] at h
              injection h with h
              subst h
              decide
            · rw [if_neg h6] at h
              by_cases h7 : l = "left".toList
              · rw [if_pos h7] at h
                injection h with h
                subst h
                decide
              · rw [if_neg h7] at h
                by_cases h8 : l = "right".toList
                · rw [if_pos h8] at h
                  injection h with h
                  subst h
                  decide
                · rw [if_neg h8] at h
                  by_cases h9 : l = "f1".toList
                  · rw [if_pos h9] at h
                    injection h with h
                    subst h
                    decide
                  · rw [if_neg h9] at h
                    by_cases h10 : l = "f2".toList
                    · rw [if_pos h10] at h
                      injection h with h
                      subst h
                      decide
                    · rw [if_neg h10] at h
                      by_cases h11 : l = "f3".toList
                      · rw [if_pos h11] at h
                        injection h with h
                        subst h
                        decide
                      · rw [if_neg h11] at h
                        by_cases h12 : l = "f4".toList
                        · rw [if_pos h12] at h
                          injection h with h
                          subst h
                          decide
                        · rw [if_neg h12] at h
                          by_cases h13 : l = "f5".toList
                          · rw [if_pos h13] at h
                            injection h with h
                            subst h
                            decide
                          · rw [if_neg h13] at h
                            by_cases h14 : l = "f6".toList
                            · rw [if_pos h14] at h
                              injection h with h
                              subst h
                              decide
                            · rw [if_neg h14] at h
                              by_cases h15 : l = "f7".toList
                              · rw [if_pos h15] at h
                                injection h with h
                                subst h
                                decide
                              · rw [if_neg h15] at h
                                by_cases h16 : l = "f8".toList
                                · rw [if_pos h16] at h
                                  injection h with h
                                  subst h
                                  decide
                                · rw [if_neg h16] at h
                                  by_cases h17 : l = "f9".toList
                                  · rw [if_pos h17] at h
                                    injection h with h
                                    subst h
                                    decide
                                  · rw [if_neg h17] at h
                                    by_cases h18 : l = "f10".toList
                                    · rw [if_pos h18] at h
                                      injection h with h
                                      subst h
                                      decide
                                    · rw [if_neg h18] at h
                                      by_cases h19 : l = "f11".toList
                                      · rw [if_pos h19] at h
                                        injection h with h
                                        subst h
                                        decide
                                      · rw [if_neg h19] at h
                                        by_cases h20 : l = "f12".toList
                                        · rw [if_pos h20] at h
                                          injection h with h
                                          subst h
                                          decide
                                        · rw [if_neg h20] at h
                                          rcases l with _ | ⟨c, _ | ⟨d, rest⟩⟩
                                          · exact absurd h (by simp)
                                          · dsimp only at h
                                            by_cases hd : 48 ≤ c.toNat ∧ c.toNat ≤ 57
                                            · rw [if_pos hd] at h
                                              injection h with h
                                              subst h
                                              simp only [allModifiers, VK_LCONTROL, VK_RCONTROL, VK_LMENU,
                                                VK_RMENU, VK_LSHIFT, VK_RSHIFT, VK_LWIN, VK_RWIN,
                                                List.mem_cons, List.not_mem_nil, or_false]
                                              omega
                                            · rw [if_neg hd] at h
                                              by_cases hl : 97 ≤ c.toNat ∧ c.toNat ≤ 122
                                              · rw [if_pos hl] at h
                                                injection h with h
                                                subst h
                                                simp only [allModifiers, VK_LCONTROL, VK_RCONTROL, VK_LMENU,
                                                  VK_RMENU, VK_LSHIFT, VK_RSHIFT, VK_LWIN, VK_RWIN,
                                                  List.mem_cons, List.not_mem_nil, or_false]
                                                omega
                                              · rw [if_neg hl] at h
                                                exact absurd h (by simp)
                                          · exact absurd h (by simp)

lemma parseKey_not_modifier : ∀ (t : List Char) (k : Nat),
    parseKey t = some k → k ∉ allModifiers :=
  fun t k h => parseKeyLower_not_modifier (t.map Char.toLower) k h

/-- C10: a successful parse always yields a binding with a non-empty
modifier list whose designated key code is not a modifier key code, and
the defensive zero-modifiers-after-parsing branch (whose error would be
`missingModifierPost`, message "at least one modifier is required"
reached after the token loop) is unreachable: the token-count check and
the loop structure force one modifier per non-last token. -/
theorem parse_binding_invariant :
    (∀ (s : String) (b : Binding), parse s = .ok b →
      b.modifiers ≠ [] ∧ b.key ∉ allModifiers) ∧
    (∀ s : String, parse s ≠ .error .missingModifierPost) := by
  constructor
  · intro s b h
    unfold parse at h
    split_ifs at h
    unfold parseHotkey at h
    dsimp only at h
    split_ifs at h
    cases hl : parseLoop (s.toList.splitOn '+') with
    | error e => rw [hl] at h; dsimp only at h; exact Except.noConfusion h
    | ok pr =>
      obtain ⟨ms, k⟩ := pr
      rw [hl] at h
      dsimp only at h
      by_cases hempty : ms.isEmpty = true
      · rw [if_pos hempty] at h
        exact Except.noConfusion h
      · rw [if_neg hempty] at h
        injection h with h
        subst h
        refine ⟨by simpa [List.isEmpty_iff] using hempty, ?_⟩
        obtain ⟨t, ht⟩ := parseLoop_key _ _ _ hl
        exact parseKey_not_modifier t k ht
  · intro s h
    unfold parse at h
    split_ifs at h
    · exact ParseError.noConfusion (Except.error.inj h)
    · unfold parseHotkey at h
      dsimp only at h
      split_ifs at h with hlen
      · exact ParseError.noConfusion (Except.error.inj h)
      · cases hl : parseLoop (s.toList.splitOn '+') with
        | error e =>
          rw [hl] at h
          dsimp only at h
          exact parseLoop_no_post _ (by rw [hl, Except.error.inj h])
        | ok pr =>
          obtain ⟨ms, k⟩ := pr
          rw [hl] at h
          dsimp only at h
          by_cases hempty : ms.isEmpty = true
          · have hcount := parseLoop_length _ _ _ hl
            rw [List.isEmpty_iff] at hempty
            subst hempty
            simp only [List.length_nil] at hcount
            omega
          · rw [if_neg hempty] at h
            exact Except.noConfusion h

theorem parse_binding_invariant_witness :
    ([VK_LMENU] : List Nat) ≠ [] ∧ VK_SPACE ∉ allModifiers :=
  parse_binding_invariant.1 "Alt+Space" ⟨[VK_LMENU], VK_SPACE⟩ (by decide)

end Launcher
